import Mathlib

/-!
Verification of the round-transition logic of the `chat_completion_abci` /
`valory_chat_abci` skills (valory-xyz/dev-template).

The development shallowly embeds the `end_block` functions of
`SynchronizeRequestsRound`, `ProcessRequestRound` and `RegistrationRound` from
`packages/algovera/skills/chat_completion_abci/rounds.py`, the partitioning loop
of `packages/algovera/skills/valory_chat_abci/rounds.py`, the failure path of
`ProcessRequestBehaviour.async_act`, and the keeper-selection computation of
`SelectKeeperBehaviour.async_act`.

Modelling conventions:
* work items (the JSON dicts stored under the `requests` / `responses` keys)
  become the structure `Item`; fields other than the ones the rounds inspect
  are collapsed into `body`;
* Python lists become `List`, a Python `set` accumulation of hashable values
  becomes `List.dedup` (the set's contents are the distinct elements; Python's
  iteration order of a set is unspecified, and every property proved below is
  insensitive to that order);
* code that can raise a Python exception is embedded in `Except String`;
  adding an unhashable value (a dict) to a set raises `TypeError`, and `i % 0`
  raises `ZeroDivisionError`, exactly as in CPython;
* `list.sort(key=...)` is Python's stable ascending sort, embedded as
  `List.insertionSort` on the key.
-/

/-- Decidable equality for `Except`, so that concrete runs of the embedded
round functions can be settled by `decide`. -/
instance {ε α : Type} [DecidableEq ε] [DecidableEq α] : DecidableEq (Except ε α) := fun x y =>
  match x, y with
  | .ok a, .ok b =>
    if h : a = b then .isTrue (congrArg Except.ok h)
    else .isFalse (fun hh => h (Except.ok.inj hh))
  | .error a, .error b =>
    if h : a = b then .isTrue (congrArg Except.error h)
    else .isFalse (fun hh => h (Except.error.inj hh))
  | .ok _, .error _ => .isFalse (fun hh => Except.noConfusion hh)
  | .error _, .ok _ => .isFalse (fun hh => Except.noConfusion hh)

/-- Transition events of `ChatCompletionAbciApp` (`rounds.py`, class `Event`). -/
inductive Event where
  | DONE
  | ROUND_TIMEOUT
  | ERROR
deriving DecidableEq, Repr

/-- A work item: one of the JSON dicts stored in the `requests` / `responses`
collections.  The fields are the keys the rounds read or write
(`id`, `request_time`, `processor`, `processed`, `failed`, `num_tries`);
all remaining payload keys are collapsed into `body`. -/
structure Item where
  id : Nat
  request_time : Nat
  processor : String
  processed : Bool
  failed : Bool
  num_tries : Nat
  body : String
deriving DecidableEq, Repr

/-- The replicated key-value store (`SynchronizedData` in `rounds.py`):
the `requests` and `responses` collections, the registered participant keys,
and `rest` standing for every other key of the underlying db. -/
structure SynchronizedData where
  requests : List Item
  responses : List Item
  all_participants : List String
  participants : List String
  rest : List (String × String)
deriving DecidableEq, Repr

/-- Payload of `SynchronizeRequestsRound`: `json.loads(payload.json["new_requests"])`,
a list of freshly submitted work items (empty when the agent had none). -/
structure SyncPayload where
  new_requests : List Item
deriving DecidableEq, Repr

/-- Payload of `ProcessRequestRound`: `response` is the JSON list sent by
`ProcessRequestBehaviour` (a single response dict, or empty), and
`failed_request` the optional failed request dict. -/
structure ProcessPayload where
  response : List Item
  failed_request : Option Item
deriving DecidableEq, Repr

/-- Lexicographic order on code-point lists, the order Python uses to compare
strings. -/
def strLeB : List Nat → List Nat → Bool
  | [], _ => true
  | _ :: _, [] => false
  | a :: as, b :: bs => if a < b then true else if b < a then false else strLeB as bs

/-- Python's string comparison `a <= b`: lexicographic on code points. -/
def pyStrLe (a b : String) : Bool :=
  strLeB (a.data.map Char.toNat) (b.data.map Char.toNat)

/-- The ids of a collection, in order (`[x["id"] for x in l]`). -/
def requestIds (l : List Item) : List Nat :=
  l.map Item.id

/-- Accumulating hashable values into a Python `set`, read back as a list:
the distinct elements of the input (iteration order of a Python set is
unspecified; `List.dedup` is one concrete order, and no theorem below
depends on the choice). -/
def pySetDedup (l : List Item) : List Item :=
  l.dedup

/-- The merge step of `SynchronizeRequestsRound.end_block`
(`rounds.py` lines 174-205): deduplicate the newly submitted items,
drop those whose id is already present in `requests` or `responses`,
and append the remainder to the existing requests. -/
def mergeNewRequests (existing_requests existing_responses new_requests : List Item) :
    List Item :=
  let nr := pySetDedup new_requests
  let nr :=
    if nr.isEmpty then nr
    else nr.filter
      (fun r => decide (r.id ∉ requestIds existing_requests ++ requestIds existing_responses))
  existing_requests ++ nr

/-- The `for i, request in enumerate(existing_requests)` assignment loop of
`SynchronizeRequestsRound.end_block` (`rounds.py` lines 214-220), with the
start index made explicit: an item with an empty `processor` is assigned
`participants[i % num_participants]`; when `num_participants = 0` this
evaluates `i % 0`, which raises `ZeroDivisionError` in Python. -/
def assignLoop (participants : List String) : Nat → List Item → Except String (List Item)
  | _, [] => .ok []
  | i, r :: rs =>
    if r.processor = "" then
      if participants.length = 0 then
        .error "ZeroDivisionError: integer division or modulo by zero"
      else
        match assignLoop participants (i + 1) rs with
        | .error e => .error e
        | .ok rest =>
          .ok ({ r with processor := participants.getD (i % participants.length) "" } :: rest)
    else
      match assignLoop participants (i + 1) rs with
      | .error e => .error e
      | .ok rest => .ok (r :: rest)

/-- The exception-free value of the assignment loop, used to reason about it
when the participant list is non-empty. -/
def assignPure (participants : List String) : Nat → List Item → List Item
  | _, [] => []
  | i, r :: rs =>
    (if r.processor = "" then
      { r with processor := participants.getD (i % participants.length) "" }
     else r) :: assignPure participants (i + 1) rs

/-- The list `SynchronizeRequestsRound.end_block` feeds to the assignment loop:
existing requests merged with the deduplicated new submissions, items with
`num_tries >= 3` dropped, sorted ascending by `request_time`
(`rounds.py` lines 206-212). -/
def syncMergedSorted (s : SynchronizedData) (coll : List SyncPayload) : List Item :=
  List.insertionSort (fun a b => a.request_time ≤ b.request_time)
    ((mergeNewRequests s.requests s.responses
        (coll.flatMap SyncPayload.new_requests)).filter (fun r => decide (r.num_tries < 3)))

/-- Embedding of `SynchronizeRequestsRound.end_block` (`rounds.py` lines 164-231).
The round is a `CollectDifferentUntilAllRound`; its threshold predicate
`collection_threshold_reached` lives in the external
`abstract_round_abci` framework package and is modelled from the spec:
all participants have submitted, i.e. the collection has one payload per
registered participant. -/
def syncEndBlock (s : SynchronizedData) (coll : List SyncPayload) :
    Except String (Option (SynchronizedData × Event)) :=
  if coll.length = s.all_participants.length then
    match assignLoop s.all_participants 0 (syncMergedSorted s coll) with
    | .error e => .error e
    | .ok reqs => .ok (some ({ s with requests := reqs }, Event.DONE))
  else
    .ok none

/-- The new responses a successful `ProcessRequestRound.end_block` appends:
the first element of each non-empty payload response list, deduplicated
through a Python set. -/
def newResponses (coll : List ProcessPayload) : List Item :=
  pySetDedup (coll.filterMap (fun p => p.response.head?))

/-- Embedding of `ProcessRequestRound.end_block` (`rounds.py` lines 89-136).
The guard `len(self.collection) == len(self.synchronized_data.all_participants)`
is written in the source itself.  The loop over the payloads executes
`failed_requests.add(fail)` where `fail = json.loads(...)` is a dict: in
Python a dict is unhashable, so the first payload carrying a
`failed_request` raises `TypeError`.  On the failure-free path the
requests whose id received a response are removed and the new responses
(deduplicated through a set of item-tuples) are appended. -/
def processEndBlock (s : SynchronizedData) (coll : List ProcessPayload) :
    Except String (Option (SynchronizedData × Event)) :=
  if coll.length = s.all_participants.length then
    if coll.isEmpty then
      .ok none
    else
      if coll.any (fun p => p.failed_request.isSome) then
        .error "TypeError: unhashable type: 'dict'"
      else
        let new_responses := pySetDedup (coll.filterMap (fun p => p.response.head?))
        let processed_request_ids := requestIds new_responses
        let existing_requests :=
          s.requests.filter (fun r => decide (r.id ∉ processed_request_ids))
        let existing_responses := s.responses ++ new_responses
        .ok (some
          ({ s with requests := existing_requests, responses := existing_responses },
           Event.DONE))
  else
    .ok none

/-- Embedding of `RegistrationRound.end_block` (`rounds.py` lines 139-153).
The round is a `CollectSameUntilAllRound`; its `collection_threshold_reached`
predicate lives in the external `abstract_round_abci` framework and is
modelled from the spec: all participants have submitted.  The collection keys
are the sender addresses; the round stores them sorted under `participants`. -/
def registrationEndBlock (s : SynchronizedData) (coll : List String) :
    Option (SynchronizedData × Event) :=
  if coll.length = s.all_participants.length then
    some ({ s with participants := List.insertionSort (fun a b => pyStrLe a b = true) coll }, Event.DONE)
  else
    none

/-- The failure branch of `ProcessRequestBehaviour.async_act`
(`chat_completion_abci/behaviours.py` lines 110-119): increment the
request's `num_tries` by one and send it as the `failed_request` of the
payload, together with an empty response list. -/
def processFailureBehaviour (request : Item) : ProcessPayload :=
  { response := [],
    failed_request := some { request with num_tries := request.num_tries + 1 } }

/-- The partitioning loop of the `valory_chat_abci` variant
(`valory_chat_abci/rounds.py` lines 311-321):
`for participant in range(num_participants)` assigns
`participants[participant]` to the item at that position of the sorted
unprocessed list, stopping at an `IndexError` when the items run out;
with zero participants the loop body never runs. -/
def valoryAssign (participants : List String) (l : List Item) : List Item :=
  l.enum.map (fun p =>
    if p.1 < participants.length then
      { p.2 with processor := participants.getD p.1 "" }
    else p.2)

/-- Modelled from the spec: Python's `random.seed(x, 2)` followed by
`random.randint(a, b)` — the standard library's deterministic pseudo-random
generator, external to this repository.  What the claims rest on is its
contract: it is a pure function of the seed string and the bounds, it returns
a value in `[a, b]` when `a ≤ b`, and it raises
`ValueError: empty range for randrange()` when the range is empty (`b < a`),
exactly as `randint` does.  The concrete mixing function below is a
stand-in realizing that contract. -/
def pyRandint (seed : String) (a b : Int) : Except String Int :=
  if b < a then
    .error "ValueError: empty range for randrange()"
  else
    .ok (a + Int.ofNat
      ((seed.data.foldl (fun acc c => (acc * 31 + c.toNat) % 2 ^ 32) 7) %
        (b - a + 1).toNat))

/-- Embedding of the keeper-selection computation of
`SelectKeeperBehaviour.async_act` (`chat_completion_fsm_app/behaviours.py`
lines 128-142): sort the participants, seed the generator with the agreed
randomness, draw `randint(0, len(participants) - 1)`, and return the
participant at that index. -/
def selectKeeper (participants : List String) (randomness : String) :
    Except String String :=
  match pyRandint randomness 0
      (((List.insertionSort (fun a b => pyStrLe a b = true) participants).length : Int) - 1) with
  | .error e => .error e
  | .ok idx =>
    .ok ((List.insertionSort (fun a b => pyStrLe a b = true) participants).getD idx.toNat "")

/-! ### Helper lemmas about the assignment loop -/

/-- The id of a member of a collection is among the collection's ids. -/
theorem id_mem_requestIds {l : List Item} {x : Item} (hx : x ∈ l) : x.id ∈ requestIds l :=
  List.mem_map_of_mem Item.id hx

/-- An id is among a collection's ids exactly when an item of the collection
carries it. -/
theorem mem_requestIds {l : List Item} {n : Nat} : n ∈ requestIds l ↔ ∃ r ∈ l, r.id = n :=
  List.mem_map

/-- With at least one participant the assignment loop never raises and
computes `assignPure`. -/
theorem assignLoop_eq_ok (ps : List String) (hps : ps.length ≠ 0) :
    ∀ (i : Nat) (l : List Item), assignLoop ps i l = .ok (assignPure ps i l) := by
  intro i l
  induction l generalizing i with
  | nil => rfl
  | cons r rs ih =>
    by_cases h : r.processor = ""
    · simp [assignLoop, assignPure, h, hps, ih]
    · simp [assignLoop, assignPure, h, ih]

/-- Whenever the assignment loop returns a list, that list is `assignPure`. -/
theorem assignLoop_ok_inv (ps : List String) :
    ∀ (i : Nat) (l m : List Item), assignLoop ps i l = .ok m → m = assignPure ps i l := by
  intro i l
  induction l generalizing i with
  | nil => intro m h; cases h; rfl
  | cons r rs ih =>
    intro m h
    by_cases hr : r.processor = ""
    · by_cases hlen : ps.length = 0
      · simp [assignLoop, hr, hlen] at h
      · simp only [assignLoop, hr, if_pos, if_neg hlen, ite_true] at h
        cases hrec : assignLoop ps (i + 1) rs with
        | error e => rw [hrec] at h; cases h
        | ok rest =>
          rw [hrec] at h
          cases h
          simp [assignPure, hr, ih _ _ hrec]
    · simp only [assignLoop, hr, ite_false] at h
      cases hrec : assignLoop ps (i + 1) rs with
      | error e => rw [hrec] at h; cases h
      | ok rest =>
        rw [hrec] at h
        cases h
        simp [assignPure, hr, ih _ _ hrec]

/-- The assignment loop only rewrites the `processor` field: the ids are kept. -/
theorem assignPure_map_id (ps : List String) :
    ∀ (i : Nat) (l : List Item), (assignPure ps i l).map Item.id = l.map Item.id := by
  intro i l
  induction l generalizing i with
  | nil => rfl
  | cons r rs ih => simp [assignPure, ih, apply_ite Item.id]

/-- The assignment loop only rewrites the `processor` field: `num_tries` is kept. -/
theorem assignPure_map_num_tries (ps : List String) :
    ∀ (i : Nat) (l : List Item), (assignPure ps i l).map Item.num_tries = l.map Item.num_tries := by
  intro i l
  induction l generalizing i with
  | nil => rfl
  | cons r rs ih => simp [assignPure, ih, apply_ite Item.num_tries]

/-- Pointwise description of the assignment loop: position `j` of the result
is the input item, its `processor` replaced by `participants[(i+j) % N]` when
it was empty. -/
theorem assignPure_getD (ps : List String) (d : Item) :
    ∀ (l : List Item) (i j : Nat), j < l.length →
      (assignPure ps i l).getD j d =
        (if (l.getD j d).processor = "" then
          { l.getD j d with processor := ps.getD ((i + j) % ps.length) "" }
         else l.getD j d) := by
  intro l
  induction l with
  | nil => intro i j hj; cases hj
  | cons r rs ih =>
    intro i j hj
    cases j with
    | zero => simp [assignPure]
    | succ j =>
      have hj' : j < rs.length := Nat.lt_of_succ_lt_succ hj
      have := ih (i + 1) j hj'
      simp only [assignPure, List.getD_cons_succ, this]
      have harith : i + 1 + j = i + (j + 1) := by omega
      rw [harith]

/-- When every item of the list is unassigned and the list is no longer than
the remaining participants, the loop hands out the participants in order. -/
theorem assignPure_map_processor_all_empty (ps : List String) :
    ∀ (l : List Item) (i : Nat), (∀ r ∈ l, r.processor = "") → i + l.length ≤ ps.length →
      (assignPure ps i l).map Item.processor = (ps.drop i).take l.length := by
  intro l
  induction l with
  | nil => intro i _ _; simp [assignPure]
  | cons r rs ih =>
    intro i hempty hlen
    have hi : i < ps.length := by
      have := hlen
      simp only [List.length_cons] at this
      omega
    have hr : r.processor = "" := hempty r (List.mem_cons_self r rs)
    have hmod : i % ps.length = i := Nat.mod_eq_of_lt hi
    have hdrop : ps.drop i = ps[i] :: ps.drop (i + 1) :=
      List.drop_eq_getElem_cons hi
    have hgetD : ps.getD i "" = ps[i] := List.getD_eq_getElem ps "" hi
    have htail := ih (i + 1) (fun x hx => hempty x (List.mem_cons_of_mem r hx))
      (by simp only [List.length_cons] at hlen; omega)
    simp only [assignPure, hr, if_pos, ite_true, List.map_cons, htail, hmod, hgetD, hdrop,
      List.length_cons, List.take_succ_cons]

/-! ### Helper lemmas about the merge and the round functions -/

/-- The `if nr.isEmpty` special case of the merge is redundant: filtering an
empty list is empty, so the merge always appends the filtered deduplicated
new submissions. -/
theorem mergeNewRequests_eq (a b c : List Item) :
    mergeNewRequests a b c =
      a ++ (pySetDedup c).filter
        (fun r => decide (r.id ∉ requestIds a ++ requestIds b)) := by
  unfold mergeNewRequests
  by_cases h : (pySetDedup c).isEmpty
  · rw [List.isEmpty_iff] at h
    simp [h]
  · simp [h]

/-- Membership in the merged list. -/
theorem mem_mergeNewRequests {a b c : List Item} {x : Item} :
    x ∈ mergeNewRequests a b c ↔
      x ∈ a ∨ (x ∈ c ∧ x.id ∉ requestIds a ∧ x.id ∉ requestIds b) := by
  rw [mergeNewRequests_eq]
  simp [pySetDedup, List.mem_filter, List.mem_dedup, and_assoc]

/-- Inversion of a successful `SynchronizeRequestsRound.end_block` transition:
the threshold held, the new `requests` are the assigned merged sorted list, and
every other field of the store is unchanged. -/
theorem syncEndBlock_ok_inv {s : SynchronizedData} {coll : List SyncPayload}
    {s' : SynchronizedData} {e : Event}
    (h : syncEndBlock s coll = .ok (some (s', e))) :
    coll.length = s.all_participants.length ∧
    s'.requests = assignPure s.all_participants 0 (syncMergedSorted s coll) ∧
    s'.responses = s.responses ∧
    s'.all_participants = s.all_participants ∧
    s'.participants = s.participants ∧
    s'.rest = s.rest ∧
    e = Event.DONE := by
  unfold syncEndBlock at h
  by_cases hth : coll.length = s.all_participants.length
  · rw [if_pos hth] at h
    cases hm : assignLoop s.all_participants 0 (syncMergedSorted s coll) with
    | error err => rw [hm] at h; cases h
    | ok m =>
      rw [hm] at h
      have hmx := assignLoop_ok_inv s.all_participants 0 (syncMergedSorted s coll) m hm
      cases h
      exact ⟨hth, by rw [hmx], rfl, rfl, rfl, rfl, rfl⟩
  · rw [if_neg hth] at h
    cases h

/-- Inversion of a successful `ProcessRequestRound.end_block` transition:
the threshold held, no payload carried a failed request, requests whose id
got a response were removed, the new responses were appended, and every
other field of the store is unchanged. -/
theorem processEndBlock_ok_inv {s : SynchronizedData} {coll : List ProcessPayload}
    {s' : SynchronizedData} {e : Event}
    (h : processEndBlock s coll = .ok (some (s', e))) :
    coll.length = s.all_participants.length ∧
    (coll.any fun p => p.failed_request.isSome) = false ∧
    s'.requests = s.requests.filter (fun r => decide (r.id ∉ requestIds (newResponses coll))) ∧
    s'.responses = s.responses ++ newResponses coll ∧
    s'.all_participants = s.all_participants ∧
    s'.participants = s.participants ∧
    s'.rest = s.rest ∧
    e = Event.DONE := by
  unfold processEndBlock at h
  by_cases hth : coll.length = s.all_participants.length
  · rw [if_pos hth] at h
    by_cases hemp : coll.isEmpty
    · rw [if_pos hemp] at h; cases h
    · rw [if_neg hemp] at h
      by_cases hfail : (coll.any fun p => p.failed_request.isSome) = true
      · rw [if_pos hfail] at h; cases h
      · rw [if_neg hfail] at h
        cases h
        exact ⟨hth, by simpa using hfail, rfl, rfl, rfl, rfl, rfl, rfl⟩
  · rw [if_neg hth] at h
    cases h

/-- Every item entering the assignment loop of `SynchronizeRequestsRound`
is a merged item that survived the `num_tries < 3` filter. -/
theorem mem_syncMergedSorted {s : SynchronizedData} {coll : List SyncPayload} {x : Item} :
    x ∈ syncMergedSorted s coll ↔
      x ∈ mergeNewRequests s.requests s.responses (coll.flatMap SyncPayload.new_requests) ∧
        x.num_tries < 3 := by
  unfold syncMergedSorted
  rw [List.mem_insertionSort, List.mem_filter]
  simp

/-- Items coming out of the assignment loop have the `num_tries` of an input item. -/
theorem num_tries_of_mem_assignPure {ps : List String} {i : Nat} {l : List Item} {x : Item}
    (hx : x ∈ assignPure ps i l) : ∃ r ∈ l, r.num_tries = x.num_tries := by
  have h1 : x.num_tries ∈ (assignPure ps i l).map Item.num_tries :=
    List.mem_map_of_mem Item.num_tries hx
  rw [assignPure_map_num_tries] at h1
  exact List.mem_map.mp h1

/-- Items coming out of the assignment loop have the id of an input item. -/
theorem id_of_mem_assignPure {ps : List String} {i : Nat} {l : List Item} {x : Item}
    (hx : x ∈ assignPure ps i l) : ∃ r ∈ l, r.id = x.id := by
  have h1 : x.id ∈ (assignPure ps i l).map Item.id :=
    List.mem_map_of_mem Item.id hx
  rw [assignPure_map_id] at h1
  exact List.mem_map.mp h1

/-- Every item of a successful `SynchronizeRequestsRound` output stems, id-wise,
from the merged filtered collection. -/
theorem sync_requests_id_src {s : SynchronizedData} {coll : List SyncPayload}
    {s' : SynchronizedData} {e : Event}
    (h : syncEndBlock s coll = .ok (some (s', e))) {x : Item} (hx : x ∈ s'.requests) :
    ∃ r, r ∈ mergeNewRequests s.requests s.responses (coll.flatMap SyncPayload.new_requests) ∧
      r.num_tries < 3 ∧ r.id = x.id := by
  obtain ⟨_, hreq, _⟩ := syncEndBlock_ok_inv h
  rw [hreq] at hx
  obtain ⟨r, hr, hid⟩ := id_of_mem_assignPure hx
  rw [mem_syncMergedSorted] at hr
  exact ⟨r, hr.1, hr.2, hid⟩

/-- Every item of a successful `SynchronizeRequestsRound` output survived the
`num_tries < 3` filter. -/
theorem sync_output_num_tries_lt {s : SynchronizedData} {coll : List SyncPayload}
    {s' : SynchronizedData} {e : Event}
    (h : syncEndBlock s coll = .ok (some (s', e))) :
    ∀ r ∈ s'.requests, r.num_tries < 3 := by
  intro r hr
  obtain ⟨_, hreq, _⟩ := syncEndBlock_ok_inv h
  rw [hreq] at hr
  obtain ⟨r0, hr0, heq⟩ := num_tries_of_mem_assignPure hr
  rw [mem_syncMergedSorted] at hr0
  rw [← heq]
  exact hr0.2

/-- When every merged item passes the `num_tries` filter, the ids of a
successful `SynchronizeRequestsRound` output are a permutation of the merged
collection's ids. -/
theorem sync_requests_ids_perm {s : SynchronizedData} {coll : List SyncPayload}
    {s' : SynchronizedData} {e : Event}
    (h : syncEndBlock s coll = .ok (some (s', e)))
    (htries : ∀ x ∈ mergeNewRequests s.requests s.responses
        (coll.flatMap SyncPayload.new_requests), x.num_tries < 3) :
    (requestIds s'.requests).Perm
      (requestIds (mergeNewRequests s.requests s.responses
        (coll.flatMap SyncPayload.new_requests))) := by
  obtain ⟨_, hreq, _⟩ := syncEndBlock_ok_inv h
  rw [hreq]
  show ((assignPure s.all_participants 0 (syncMergedSorted s coll)).map Item.id).Perm _
  rw [assignPure_map_id]
  unfold syncMergedSorted
  rw [List.filter_eq_self.mpr (fun a ha => by simp [htries a ha])]
  exact (List.perm_insertionSort _ _).map Item.id

/-- Merging into an empty store keeps exactly the deduplicated submissions. -/
theorem mergeNewRequests_empty_store (c : List Item) :
    mergeNewRequests [] [] c = pySetDedup c := by
  rw [mergeNewRequests_eq]
  simp [requestIds]

/-- Merging submissions whose ids are all already pending is a no-op. -/
theorem mergeNewRequests_absorb (a b c : List Item)
    (habs : ∀ x ∈ pySetDedup c, x.id ∈ requestIds a) :
    mergeNewRequests a b c = a := by
  rw [mergeNewRequests_eq]
  have hnil : (pySetDedup c).filter
      (fun r => decide (r.id ∉ requestIds a ++ requestIds b)) = [] :=
    List.filter_eq_nil_iff.mpr (fun x hx => by
      simp only [decide_eq_true_eq, Decidable.not_not, List.mem_append]
      exact Or.inl (habs x hx))
  rw [hnil, List.append_nil]

/-- For a non-empty range, `randint` returns a value inside the range. -/
theorem pyRandint_ok_range (seed : String) (a b : Int) (hab : a ≤ b) :
    ∃ n, pyRandint seed a b = .ok n ∧ a ≤ n ∧ n ≤ b := by
  unfold pyRandint
  rw [if_neg (by omega)]
  simp only [Int.ofNat_eq_coe]
  refine ⟨_, rfl, ?_, ?_⟩
  · have : (0 : Int) ≤
        (((seed.data.foldl (fun acc c => (acc * 31 + c.toNat) % 2 ^ 32) 7) %
          (b - a + 1).toNat : Nat) : Int) := Int.natCast_nonneg _
    omega
  · have hpos : 0 < (b - a + 1).toNat := by omega
    have hlt := Nat.mod_lt
      (seed.data.foldl (fun acc c => (acc * 31 + c.toNat) % 2 ^ 32) 7) hpos
    omega

/-! ### The claims -/

/-- C4: every item of the requests collection produced by a successful
`SynchronizeRequestsRound.end_block` transition has `num_tries < 3`; an input
item whose `num_tries` has reached 3 is dropped and never re-appears in the
produced pending collection, and the transition writes nothing to the
`responses` collection. -/
theorem C4_num_tries_ceiling (s : SynchronizedData) (coll : List SyncPayload)
    (s' : SynchronizedData) (e : Event)
    (h : syncEndBlock s coll = .ok (some (s', e))) :
    (∀ r ∈ s'.requests, r.num_tries < 3) ∧
    (∀ r ∈ s.requests, 3 ≤ r.num_tries → r ∉ s'.requests) ∧
    s'.responses = s.responses := by
  have hall := sync_output_num_tries_lt h
  refine ⟨hall, ?_, (syncEndBlock_ok_inv h).2.2.1⟩
  intro r _ hge hmem
  exact absurd (hall r hmem) (by omega)

/-- Witness for C4: on a concrete store holding an item with `num_tries = 3`
and an item with `num_tries = 1`, the ceiling item is dropped from the
produced requests collection. -/
theorem C4_num_tries_ceiling_witness :
    (Item.mk 1 5 "" false false 3 "x") ∉
      (SynchronizedData.mk [Item.mk 2 6 "A" false false 1 "y"] [] ["A"] [] []).requests :=
  (C4_num_tries_ceiling
      (SynchronizedData.mk
        [Item.mk 1 5 "" false false 3 "x", Item.mk 2 6 "" false false 1 "y"] [] ["A"] [] [])
      [SyncPayload.mk []]
      (SynchronizedData.mk [Item.mk 2 6 "A" false false 1 "y"] [] ["A"] [] [])
      Event.DONE (by decide)).2.1
    (Item.mk 1 5 "" false false 3 "x") (by decide) (by decide)

/-- Counterexample for C1 as stated.  First conjunct: with one participant
(`N = 1`) and two unassigned items, the claim says only the first unassigned
item is assigned in this round and the second keeps an empty `processor`;
the code assigns every unassigned item (the index wraps modulo `N`), so both
items get processor `A`.  Second conjunct: with participants `[A, B]`, an
already-assigned item at position 0 and an unassigned item at position 1,
the claim (position among currently-unassigned items, so `i = 0`) predicts
processor `A`; the code uses the position in the full sorted list (`i = 1`)
and assigns `B`. -/
theorem C1_counterexample :
    (syncEndBlock
        (SynchronizedData.mk
          [Item.mk 1 10 "" false false 0 "a", Item.mk 2 20 "" false false 0 "b"]
          [] ["A"] [] [])
        [SyncPayload.mk []] =
      .ok (some (SynchronizedData.mk
        [Item.mk 1 10 "A" false false 0 "a", Item.mk 2 20 "A" false false 0 "b"]
        [] ["A"] [] [], Event.DONE))) ∧
    (syncEndBlock
        (SynchronizedData.mk
          [Item.mk 1 10 "X" false false 0 "a", Item.mk 2 20 "" false false 0 "b"]
          [] ["A", "B"] [] [])
        [SyncPayload.mk [], SyncPayload.mk []] =
      .ok (some (SynchronizedData.mk
        [Item.mk 1 10 "X" false false 0 "a", Item.mk 2 20 "B" false false 0 "b"]
        [] ["A", "B"] [] [], Event.DONE))) := by
  decide

/-- C1 amended: in the partitioning pass of a successful
`SynchronizeRequestsRound.end_block` transition, the item at position `j` of
the merged sorted request list is assigned `participants[j % N]` when its
`processor` is empty — `j` being its position in the full sorted list,
already-assigned items included — and is kept unchanged otherwise; every
unassigned item is assigned in the same round (the index wraps modulo `N`). -/
theorem C1_assignment_amended (s : SynchronizedData) (coll : List SyncPayload)
    (s' : SynchronizedData) (e : Event) (d : Item)
    (h : syncEndBlock s coll = .ok (some (s', e))) (j : Nat)
    (hj : j < (syncMergedSorted s coll).length) :
    s'.requests.getD j d =
      (if ((syncMergedSorted s coll).getD j d).processor = "" then
        { (syncMergedSorted s coll).getD j d with
            processor := s.all_participants.getD (j % s.all_participants.length) "" }
       else (syncMergedSorted s coll).getD j d) := by
  obtain ⟨_, hreq, _⟩ := syncEndBlock_ok_inv h
  rw [hreq]
  simpa using assignPure_getD s.all_participants d (syncMergedSorted s coll) 0 j hj

/-- Witness for C1 amended: with participants `[A, B]`, an assigned item at
position 0 and an unassigned item at position 1, position 1 of the output is
the input item with processor `participants[1 % 2] = B`. -/
theorem C1_assignment_amended_witness :
    (SynchronizedData.mk
      [Item.mk 1 10 "X" false false 0 "a", Item.mk 2 20 "B" false false 0 "b"]
      [] ["A", "B"] [] []).requests.getD 1 (Item.mk 0 0 "" false false 0 "") =
      Item.mk 2 20 "B" false false 0 "b" :=
  C1_assignment_amended
    (SynchronizedData.mk
      [Item.mk 1 10 "X" false false 0 "a", Item.mk 2 20 "" false false 0 "b"]
      [] ["A", "B"] [] [])
    [SyncPayload.mk [], SyncPayload.mk []]
    (SynchronizedData.mk
      [Item.mk 1 10 "X" false false 0 "a", Item.mk 2 20 "B" false false 0 "b"]
      [] ["A", "B"] [] [])
    Event.DONE (Item.mk 0 0 "" false false 0 "") (by decide) 1 (by decide)

/-- Counterexample for C2 as stated.  The merge of
`SynchronizeRequestsRound.end_block` deduplicates through a Python set of
item tuples — by full item equality, not by id.  A batch containing two
distinct items that share id 1 therefore produces a requests collection with
two entries for that id, and merging the same batch a second time leaves the
store unchanged (still two entries for id 1). -/
theorem C2_counterexample :
    (syncEndBlock (SynchronizedData.mk [] [] ["A"] [] [])
        [SyncPayload.mk
          [Item.mk 1 10 "" false false 0 "x", Item.mk 1 20 "" false false 0 "y"]] =
      .ok (some (SynchronizedData.mk
        [Item.mk 1 10 "A" false false 0 "x", Item.mk 1 20 "A" false false 0 "y"]
        [] ["A"] [] [], Event.DONE))) ∧
    (syncEndBlock
        (SynchronizedData.mk
          [Item.mk 1 10 "A" false false 0 "x", Item.mk 1 20 "A" false false 0 "y"]
          [] ["A"] [] [])
        [SyncPayload.mk
          [Item.mk 1 10 "" false false 0 "x", Item.mk 1 20 "" false false 0 "y"]] =
      .ok (some (SynchronizedData.mk
        [Item.mk 1 10 "A" false false 0 "x", Item.mk 1 20 "A" false false 0 "y"]
        [] ["A"] [] [], Event.DONE))) ∧
    List.count 1
      (requestIds
        [Item.mk 1 10 "A" false false 0 "x", Item.mk 1 20 "A" false false 0 "y"]) = 2 := by
  decide

/-- C2 amended: for a submission batch in which items sharing an id are equal
(the deduplication of the merge is by full item equality, so distinct items
with equal ids would all survive) and whose items are below the retry ceiling,
merging the batch twice into an initially empty store with one registered
participant yields a requests collection with exactly one entry per unique
item id of the batch. -/
theorem C2_merge_idempotent_amended (B : List Item)
    (hinj : ∀ x ∈ B, ∀ y ∈ B, x.id = y.id → x = y)
    (htries : ∀ x ∈ B, x.num_tries < 3)
    (s1 s2 : SynchronizedData) (e1 e2 : Event)
    (h1 : syncEndBlock (SynchronizedData.mk [] [] ["A"] [] []) [SyncPayload.mk B] =
      .ok (some (s1, e1)))
    (h2 : syncEndBlock s1 [SyncPayload.mk B] = .ok (some (s2, e2))) :
    (requestIds s2.requests).Nodup ∧
    (∀ n, n ∈ requestIds s2.requests ↔ n ∈ requestIds B) := by
  have htriesD : ∀ x ∈ pySetDedup B, x.num_tries < 3 := fun x hx =>
    htries x (List.mem_dedup.mp hx)
  have hresp1 : s1.responses = (SynchronizedData.mk [] [] ["A"] [] []).responses :=
    (syncEndBlock_ok_inv h1).2.2.1
  have hperm1 : (requestIds s1.requests).Perm (requestIds (pySetDedup B)) := by
    have hp := sync_requests_ids_perm h1 (by
      simpa [mergeNewRequests_empty_store] using htriesD)
    simpa [mergeNewRequests_empty_store] using hp
  have htriesS1 : ∀ r ∈ s1.requests, r.num_tries < 3 := sync_output_num_tries_lt h1
  have habs : ∀ x ∈ pySetDedup B, x.id ∈ requestIds s1.requests := fun x hx =>
    hperm1.mem_iff.mpr (id_mem_requestIds hx)
  have hmerge2 : mergeNewRequests s1.requests s1.responses B = s1.requests := by
    have hr : s1.responses = [] := by simpa using hresp1
    rw [hr]
    exact mergeNewRequests_absorb _ _ _ habs
  have hperm2 : (requestIds s2.requests).Perm (requestIds s1.requests) := by
    have hp := sync_requests_ids_perm h2 (by
      simpa [hmerge2] using htriesS1)
    simpa [hmerge2] using hp
  have hperm : (requestIds s2.requests).Perm (requestIds (pySetDedup B)) :=
    hperm2.trans hperm1
  constructor
  · have hD : (pySetDedup B).Nodup := List.nodup_dedup B
    have hidD : (requestIds (pySetDedup B)).Nodup :=
      hD.map_on (fun x hx y hy hxy =>
        hinj x (List.mem_dedup.mp hx) y (List.mem_dedup.mp hy) hxy)
    exact hperm.nodup_iff.mpr hidD
  · intro n
    rw [hperm.mem_iff]
    constructor
    · intro hn
      obtain ⟨r, hr, hid⟩ := mem_requestIds.mp hn
      exact mem_requestIds.mpr ⟨r, List.mem_dedup.mp hr, hid⟩
    · intro hn
      obtain ⟨r, hr, hid⟩ := mem_requestIds.mp hn
      exact mem_requestIds.mpr ⟨r, List.mem_dedup.mpr hr, hid⟩

/-- Witness for C2 amended: a two-item batch with distinct ids, merged twice
into the empty store, yields a requests collection whose id list has no
duplicates and contains an id exactly when the batch does. -/
theorem C2_merge_idempotent_amended_witness :
    (requestIds
      [Item.mk 1 10 "A" false false 0 "x", Item.mk 2 20 "A" false false 0 "y"]).Nodup :=
  (C2_merge_idempotent_amended
    [Item.mk 1 10 "" false false 0 "x", Item.mk 2 20 "" false false 0 "y"]
    (by decide) (by decide)
    (SynchronizedData.mk
      [Item.mk 1 10 "A" false false 0 "x", Item.mk 2 20 "A" false false 0 "y"]
      [] ["A"] [] [])
    (SynchronizedData.mk
      [Item.mk 1 10 "A" false false 0 "x", Item.mk 2 20 "A" false false 0 "y"]
      [] ["A"] [] [])
    Event.DONE Event.DONE (by decide) (by decide)).1

/-- C3: the id-sets of `requests` and `responses` stay disjoint.
For every store: (i) the merge step only adds items that either were already
pending or whose id is absent from both collections; (ii) a successful
`SynchronizeRequestsRound.end_block` never puts into `requests` an item whose
id is new to `requests` yet present in `responses`, and it preserves
disjointness of the two id-sets; (iii) in the same successful
`ProcessRequestRound.end_block` transition that appends a new response, every
request carrying that response's id is removed, and disjointness of the two
id-sets is preserved. -/
theorem C3_id_disjointness (s : SynchronizedData) :
    (∀ (new : List Item), ∀ x ∈ mergeNewRequests s.requests s.responses new,
      x ∈ s.requests ∨ (x.id ∉ requestIds s.requests ∧ x.id ∉ requestIds s.responses)) ∧
    (∀ (coll : List SyncPayload) (s' : SynchronizedData) (e : Event),
      syncEndBlock s coll = .ok (some (s', e)) →
      (∀ r' ∈ s'.requests, r'.id ∉ requestIds s.requests → r'.id ∉ requestIds s.responses) ∧
      ((∀ n ∈ requestIds s.requests, n ∉ requestIds s.responses) →
        ∀ n ∈ requestIds s'.requests, n ∉ requestIds s'.responses)) ∧
    (∀ (coll : List ProcessPayload) (s' : SynchronizedData) (e : Event),
      processEndBlock s coll = .ok (some (s', e)) →
      (∀ resp ∈ s'.responses, resp ∉ s.responses → ∀ r' ∈ s'.requests, r'.id ≠ resp.id) ∧
      ((∀ n ∈ requestIds s.requests, n ∉ requestIds s.responses) →
        ∀ n ∈ requestIds s'.requests, n ∉ requestIds s'.responses)) := by
  refine ⟨?_, ?_, ?_⟩
  · intro new x hx
    rw [mem_mergeNewRequests] at hx
    rcases hx with hold | ⟨_, h1, h2⟩
    · exact Or.inl hold
    · exact Or.inr ⟨h1, h2⟩
  · intro coll s' e h
    have hresp : s'.responses = s.responses := (syncEndBlock_ok_inv h).2.2.1
    have key : ∀ r' ∈ s'.requests,
        r'.id ∉ requestIds s.requests → r'.id ∉ requestIds s.responses := by
      intro r' hr' hnotin
      obtain ⟨r, hrmem, _, hrid⟩ := sync_requests_id_src h hr'
      rw [mem_mergeNewRequests] at hrmem
      rcases hrmem with hold | ⟨_, _, hnresp⟩
      · exact absurd (hrid ▸ id_mem_requestIds hold) hnotin
      · exact hrid ▸ hnresp
    refine ⟨key, ?_⟩
    intro hdis n hn
    rw [hresp]
    obtain ⟨r', hr', hid⟩ := mem_requestIds.mp hn
    by_cases hcase : r'.id ∈ requestIds s.requests
    · exact hid ▸ hdis r'.id hcase
    · exact hid ▸ key r' hr' hcase
  · intro coll s' e h
    obtain ⟨_, _, hreqs, hresps, _⟩ := processEndBlock_ok_inv h
    have key : ∀ r' ∈ s'.requests, r'.id ∉ requestIds (newResponses coll) := by
      intro r' hr'
      rw [hreqs, List.mem_filter] at hr'
      simpa using hr'.2
    refine ⟨?_, ?_⟩
    · intro resp hrespmem hnot r' hr' heq
      rw [hresps] at hrespmem
      rcases List.mem_append.mp hrespmem with h1 | h2
      · exact hnot h1
      · exact key r' hr' (heq ▸ id_mem_requestIds h2)
    · intro hdis n hn
      rw [hresps]
      obtain ⟨r', hr', hid⟩ := mem_requestIds.mp hn
      have hr'old : r' ∈ s.requests := by
        rw [hreqs, List.mem_filter] at hr'
        exact hr'.1
      intro hcontra
      have : requestIds (s.responses ++ newResponses coll) =
          requestIds s.responses ++ requestIds (newResponses coll) := List.map_append _ _ _
      rw [this] at hcontra
      rcases List.mem_append.mp hcontra with h1 | h2
      · exact hdis n (hid ▸ id_mem_requestIds hr'old) h1
      · exact key r' hr' (hid ▸ h2)

/-- Witness for C3: in a concrete `ProcessRequestRound` transition that appends
the response with id 2, the surviving request (id 1) does not carry the
response's id. -/
theorem C3_id_disjointness_witness :
    (Item.mk 1 1 "A" false false 0 "q").id ≠ (Item.mk 2 5 "A" true false 0 "resp").id :=
  ((C3_id_disjointness
      (SynchronizedData.mk
        [Item.mk 1 1 "A" false false 0 "q", Item.mk 2 2 "A" false false 0 "w"]
        [Item.mk 9 0 "B" true false 0 "z"] ["A"] [] [])).2.2
    [ProcessPayload.mk [Item.mk 2 5 "A" true false 0 "resp"] none]
    (SynchronizedData.mk [Item.mk 1 1 "A" false false 0 "q"]
      [Item.mk 9 0 "B" true false 0 "z", Item.mk 2 5 "A" true false 0 "resp"] ["A"] [] [])
    Event.DONE (by decide)).1
    (Item.mk 2 5 "A" true false 0 "resp") (by decide) (by decide)
    (Item.mk 1 1 "A" false false 0 "q") (by decide)

/-- Counterexample for C8 as stated.  With participants `[A, B]` (`N = 2`) and
a store whose unassigned items number `M = 2 ≤ N` but sit at positions 1 and 3
between already-assigned items, the code assigns `participants[1 % 2] = B` and
`participants[3 % 2] = B`: both unassigned items receive the same processor,
refuting pairwise distinctness. -/
theorem C8_counterexample :
    (syncEndBlock
        (SynchronizedData.mk
          [Item.mk 1 10 "X" false false 0 "a", Item.mk 2 20 "" false false 0 "b",
           Item.mk 3 30 "Y" false false 0 "c", Item.mk 4 40 "" false false 0 "d"]
          [] ["A", "B"] [] [])
        [SyncPayload.mk [], SyncPayload.mk []] =
      .ok (some (SynchronizedData.mk
        [Item.mk 1 10 "X" false false 0 "a", Item.mk 2 20 "B" false false 0 "b",
         Item.mk 3 30 "Y" false false 0 "c", Item.mk 4 40 "B" false false 0 "d"]
        [] ["A", "B"] [] [], Event.DONE))) ∧
    (List.map Item.processor
      [Item.mk 1 10 "X" false false 0 "a", Item.mk 2 20 "B" false false 0 "b",
       Item.mk 3 30 "Y" false false 0 "c", Item.mk 4 40 "B" false false 0 "d"] =
      ["X", "B", "Y", "B"]) := by
  decide

/-- C8 amended: when the whole pending store is unassigned — `M` items, all
with an empty `processor`, `M ≤ N` distinct participants, no new submissions —
a successful `SynchronizeRequestsRound.end_block` gives the `M` items the
first `M` participants in order: every item is assigned, the assigned
processors are pairwise distinct, and each is drawn from the participant
list.  (The spec's example is the witness: participants `[A, B, C]` and two
unprocessed items sorted by time receive `A` and `B`.) -/
theorem C8_distinct_processors_amended (s : SynchronizedData) (coll : List SyncPayload)
    (s' : SynchronizedData) (e : Event)
    (hnodup : s.all_participants.Nodup)
    (hempty : ∀ r ∈ s.requests, r.processor = "")
    (htries : ∀ r ∈ s.requests, r.num_tries < 3)
    (hnonew : coll.flatMap SyncPayload.new_requests = [])
    (hM : s.requests.length ≤ s.all_participants.length)
    (h : syncEndBlock s coll = .ok (some (s', e))) :
    s'.requests.map Item.processor = s.all_participants.take s.requests.length ∧
    (s'.requests.map Item.processor).Nodup ∧
    (∀ p ∈ s'.requests.map Item.processor, p ∈ s.all_participants) := by
  obtain ⟨_, hreq, _⟩ := syncEndBlock_ok_inv h
  have hmerge : mergeNewRequests s.requests s.responses ([] : List Item) = s.requests := by
    rw [mergeNewRequests_eq]
    simp [pySetDedup]
  have hfilter : s.requests.filter (fun r => decide (r.num_tries < 3)) = s.requests :=
    List.filter_eq_self.mpr (fun a ha => by simp [htries a ha])
  have hsml : syncMergedSorted s coll =
      List.insertionSort (fun a b => a.request_time ≤ b.request_time) s.requests := by
    unfold syncMergedSorted
    rw [hnonew, hmerge, hfilter]
  have hlen : (syncMergedSorted s coll).length = s.requests.length := by
    rw [hsml, List.length_insertionSort]
  have hemptyL : ∀ r ∈ syncMergedSorted s coll, r.processor = "" := by
    intro r hr
    rw [hsml, List.mem_insertionSort] at hr
    exact hempty r hr
  have hmap := assignPure_map_processor_all_empty s.all_participants
    (syncMergedSorted s coll) 0 hemptyL (by omega)
  rw [hreq, hmap, List.drop_zero, hlen]
  refine ⟨rfl, ?_, ?_⟩
  · exact List.Nodup.sublist (List.take_sublist _ _) hnodup
  · intro p hp
    exact List.take_subset _ _ hp

/-- Witness for C8 amended, realizing the spec's example: participants
`[A, B, C]` and two unprocessed items sorted by `request_time` — the earliest
item gets processor `A` and the second `B`. -/
theorem C8_distinct_processors_amended_witness :
    (SynchronizedData.mk
      [Item.mk 1 10 "A" false false 0 "a", Item.mk 2 20 "B" false false 0 "b"]
      [] ["A", "B", "C"] [] []).requests.map Item.processor =
      (["A", "B", "C"] : List String).take 2 :=
  (C8_distinct_processors_amended
    (SynchronizedData.mk
      [Item.mk 1 10 "" false false 0 "a", Item.mk 2 20 "" false false 0 "b"]
      [] ["A", "B", "C"] [] [])
    [SyncPayload.mk [], SyncPayload.mk [], SyncPayload.mk []]
    (SynchronizedData.mk
      [Item.mk 1 10 "A" false false 0 "a", Item.mk 2 20 "B" false false 0 "b"]
      [] ["A", "B", "C"] [] [])
    Event.DONE (by decide) (by decide) (by decide) (by decide) (by decide) (by decide)).1

/-- C10: a successful `SynchronizeRequestsRound.end_block` transition writes
only the `requests` key: the `responses` collection, the participant keys and
every other key of the store are unchanged in the returned snapshot. -/
theorem C10_sync_frame (s : SynchronizedData) (coll : List SyncPayload)
    (s' : SynchronizedData) (e : Event)
    (h : syncEndBlock s coll = .ok (some (s', e))) :
    s'.responses = s.responses ∧
    s'.all_participants = s.all_participants ∧
    s'.participants = s.participants ∧
    s'.rest = s.rest := by
  obtain ⟨_, _, h1, h2, h3, h4, _⟩ := syncEndBlock_ok_inv h
  exact ⟨h1, h2, h3, h4⟩

/-- Witness for C10: a concrete merge transition leaves the responses, the
participant keys and the remaining db keys untouched. -/
theorem C10_sync_frame_witness :
    (SynchronizedData.mk [Item.mk 1 2 "A" false false 0 "b"]
      [Item.mk 7 1 "A" true false 0 "r"] ["A"] ["A"] [("k", "v")]).responses =
        (SynchronizedData.mk [] [Item.mk 7 1 "A" true false 0 "r"]
          ["A"] ["A"] [("k", "v")]).responses ∧
    (SynchronizedData.mk [Item.mk 1 2 "A" false false 0 "b"]
      [Item.mk 7 1 "A" true false 0 "r"] ["A"] ["A"] [("k", "v")]).rest =
        (SynchronizedData.mk [] [Item.mk 7 1 "A" true false 0 "r"]
          ["A"] ["A"] [("k", "v")]).rest :=
  ⟨(C10_sync_frame
      (SynchronizedData.mk [] [Item.mk 7 1 "A" true false 0 "r"] ["A"] ["A"] [("k", "v")])
      [SyncPayload.mk [Item.mk 1 2 "" false false 0 "b"]]
      (SynchronizedData.mk [Item.mk 1 2 "A" false false 0 "b"]
        [Item.mk 7 1 "A" true false 0 "r"] ["A"] ["A"] [("k", "v")])
      Event.DONE (by decide)).1,
   (C10_sync_frame
      (SynchronizedData.mk [] [Item.mk 7 1 "A" true false 0 "r"] ["A"] ["A"] [("k", "v")])
      [SyncPayload.mk [Item.mk 1 2 "" false false 0 "b"]]
      (SynchronizedData.mk [Item.mk 1 2 "A" false false 0 "b"]
        [Item.mk 7 1 "A" true false 0 "r"] ["A"] ["A"] [("k", "v")])
      Event.DONE (by decide)).2.2.2⟩


/-- C5 (code bug): the failure branch of `ProcessRequestBehaviour.async_act`
increments the failed request's `num_tries` by exactly one in the payload it
submits, but the `ProcessRequestRound.end_block` transition that should record
the failure raises `TypeError` — `failed_requests.add(fail)` adds an
unhashable dict to a Python set — so the transition never completes (and the
store item's counter, which only the discarded payload copy incremented, is
never updated). -/
theorem C5_failure_recording_bug :
    (∀ r : Item, (processFailureBehaviour r).failed_request =
      some { r with num_tries := r.num_tries + 1 }) ∧
    processEndBlock
      (SynchronizedData.mk [Item.mk 1 10 "A" false false 0 "a"] [] ["A"] [] [])
      [processFailureBehaviour (Item.mk 1 10 "A" false false 0 "a")] =
      .error "TypeError: unhashable type: 'dict'" :=
  ⟨fun _ => rfl, by decide⟩

/-- Counterexample for C6 as stated: the claim quantifies over every
participant list, but with an empty participant list the keeper-selection
computation draws `randint(0, -1)`, which raises `ValueError` — no keeper
address is selected, so no selected address is a member of the participant
set. -/
theorem C6_counterexample :
    selectKeeper [] "r" = .error "ValueError: empty range for randrange()" := by
  decide

/-- C6 amended: for every NON-empty participant list and every randomness
value, keeper selection is a pure function of its two inputs — two runs on
the same inputs give the identical result — and it succeeds with a keeper
address that is a member of the participant set. -/
theorem C6_keeper_deterministic (participants : List String) (randomness : String)
    (hne : participants ≠ []) :
    selectKeeper participants randomness = selectKeeper participants randomness ∧
    ∃ k, selectKeeper participants randomness = .ok k ∧ k ∈ participants := by
  refine ⟨rfl, ?_⟩
  have hlen : 0 < participants.length := List.length_pos.mpr hne
  have hlps : (List.insertionSort (fun a b => pyStrLe a b = true) participants).length
      = participants.length := List.length_insertionSort _ _
  obtain ⟨n, hok, hn0, hnb⟩ := pyRandint_ok_range randomness 0
    (((List.insertionSort (fun a b => pyStrLe a b = true) participants).length : Int) - 1) (by omega)
  have hnlt : n.toNat < (List.insertionSort (fun a b => pyStrLe a b = true) participants).length := by
    omega
  unfold selectKeeper
  rw [hok]
  refine ⟨_, rfl, ?_⟩
  rw [List.getD_eq_getElem _ "" hnlt]
  have hmem : (List.insertionSort (fun a b => pyStrLe a b = true) participants)[n.toNat] ∈
      List.insertionSort (fun a b => pyStrLe a b = true) participants := List.getElem_mem _
  rw [List.mem_insertionSort] at hmem
  exact hmem

/-- Witness for C6 amended: on participants `[B, A]` with randomness `r` the
selection succeeds and the selected keeper is a member of the participant
set. -/
theorem C6_keeper_deterministic_witness : "B" ∈ (["B", "A"] : List String) := by
  obtain ⟨k, hk, hmem⟩ := (C6_keeper_deterministic ["B", "A"] "r" (by decide)).2
  have heval : selectKeeper ["B", "A"] "r" = .ok "B" := by decide
  have hkB : k = "B" := Except.ok.inj (hk.symm.trans heval)
  exact hkB ▸ hmem

/-- C7 (code bug): with zero participants and a pending unassigned item, the
chat_completion partitioning pass evaluates `i % 0` and raises
`ZeroDivisionError` instead of the graceful no-op the spec requires.  The
`valory_chat_abci` variant of the pass, which iterates over
`range(num_participants)`, is a genuine no-op for `N = 0` on every list. -/
theorem C7_empty_participants_bug :
    (syncEndBlock
        (SynchronizedData.mk [Item.mk 1 10 "" false false 0 "a"] [] [] [] []) [] =
      .error "ZeroDivisionError: integer division or modulo by zero") ∧
    (∀ l : List Item, valoryAssign [] l = l) := by
  constructor
  · decide
  · intro l
    have h1 : ∀ p ∈ l.enum,
        (if p.1 < ([] : List String).length then
          { p.2 with processor := ([] : List String).getD p.1 "" }
         else p.2) = p.2 := by
      intro p _
      simp
    unfold valoryAssign
    rw [List.map_congr_left h1]
    exact List.enumFrom_map_snd 0 l

/-- Counterexample for C9 as stated: a `ProcessRequestRound` collection with
one payload per participant — the threshold is satisfied — whose payload
records a failed request.  `end_block` raises `TypeError` instead of
returning a synchronized-data snapshot with a transition event. -/
theorem C9_counterexample :
    ([ProcessPayload.mk [] (some (Item.mk 5 50 "B" false false 1 "z"))].length =
      (SynchronizedData.mk [Item.mk 5 50 "B" false false 0 "z"]
        [] ["B"] [] []).all_participants.length) ∧
    processEndBlock
      (SynchronizedData.mk [Item.mk 5 50 "B" false false 0 "z"] [] ["B"] [] [])
      [ProcessPayload.mk [] (some (Item.mk 5 50 "B" false false 1 "z"))] =
      .error "TypeError: unhashable type: 'dict'" := by
  decide

/-- C9 amended: `end_block` returns `None` whenever the agreement threshold
(all participants submitted) is not satisfied — for `ProcessRequestRound`,
`SynchronizeRequestsRound` and `RegistrationRound` alike, the latter as an
exact equivalence — and `ProcessRequestRound.end_block` returns a new
snapshot with the `DONE` event when the threshold is satisfied, the
collection is non-empty and no payload carries a failed request (with a
failed request present it raises instead of returning). -/
theorem C9_threshold_amended :
    (∀ (s : SynchronizedData) (coll : List ProcessPayload),
      coll.length ≠ s.all_participants.length → processEndBlock s coll = .ok none) ∧
    (∀ (s : SynchronizedData) (coll : List SyncPayload),
      coll.length ≠ s.all_participants.length → syncEndBlock s coll = .ok none) ∧
    (∀ (s : SynchronizedData) (coll : List String),
      registrationEndBlock s coll = none ↔ coll.length ≠ s.all_participants.length) ∧
    (∀ (s : SynchronizedData) (coll : List ProcessPayload),
      coll.length = s.all_participants.length → coll ≠ [] →
      (∀ p ∈ coll, p.failed_request = none) →
      ∃ s', processEndBlock s coll = .ok (some (s', Event.DONE))) := by
  refine ⟨?_, ?_, ?_, ?_⟩
  · intro s coll h
    unfold processEndBlock
    rw [if_neg h]
  · intro s coll h
    unfold syncEndBlock
    rw [if_neg h]
  · intro s coll
    unfold registrationEndBlock
    by_cases h : coll.length = s.all_participants.length
    · simp [h]
    · simp [h]
  · intro s coll hth hne hfail
    have hemp : coll.isEmpty = false := by
      cases coll with
      | nil => exact absurd rfl hne
      | cons p ps => rfl
    have hf : (coll.any fun p => p.failed_request.isSome) = false := by
      rw [List.any_eq_false]
      intro p hp
      rw [hfail p hp]
      simp
    unfold processEndBlock
    rw [if_pos hth]
    rw [hemp, hf]
    exact ⟨_, rfl⟩

/-- Witness for C9 amended: with one registered participant and an empty
collection the threshold is not satisfied and `ProcessRequestRound.end_block`
returns `None`. -/
theorem C9_threshold_amended_witness :
    processEndBlock (SynchronizedData.mk [] [] ["A"] [] []) [] = .ok none :=
  C9_threshold_amended.1 (SynchronizedData.mk [] [] ["A"] [] []) [] (by decide)
